import Mathlib

/-!
Shallow embedding of the offline-resilient submission subsystem of
`src/tracking_app_windows.py` (a PySide6 tracking client), together with
theorems settling the specification claims about it.

Conventions of the embedding:
* Python `dict` records travelling through the queue are the structure
  `ScanRecord` (structural equality, as in the source, where `r not in synced`
  compares dicts field-wise).
* The outcome of one `requests.post` call is the inductive `Attempt`
  (a response was obtained, carrying its status code and the extracted
  `note` field of the payload, or a `requests.RequestException` transport
  failure with no response).
* Durable files are explicit values threaded through the functions:
  the offline queue file is a `List ScanRecord`, the state file is the
  inductive `StateFile`.
* Python `datetime` values are linearised: a calendar date is an integer
  day index, a time of day is a second count in `[0, 86400)`, and
  `datetime.combine d t` is `d * 86400 + t`; this is order-isomorphic to the
  library's datetime ordering, which is all the filtering code uses.
  `parse_api_datetime` on a record's `datetime` string is abstracted by its
  result: `Option Int` holding the UTC instant (or `none` when the field is
  absent or unparseable); `.astimezone()` adds a fixed local offset `tz`.
-/

namespace TrackingApp

/-- A scan record as built in `submit_record`:
`{"user_name": ..., "boxid": ..., "ttn": ...}`.  Identity is structural
equality of the three fields. -/
structure ScanRecord where
  user_name : String
  boxid : String
  ttn : String
deriving DecidableEq, Repr

/-- Outcome of one `requests.post(f"{API_BASE}/add_record", ...)` call:
either a response was obtained (status code plus the `note` string extracted
from the JSON payload, empty when absent or the payload is not a dict), or a
`requests.RequestException` was raised with no response obtained. -/
inductive Attempt where
  | response (status_code : Nat) (note : String)
  | transportError
deriving DecidableEq, Repr

/-- The value `submit_record` returns: the `{"status": ..., "message": ...}`
dict. -/
structure SubmitResult where
  status : String
  message : String
deriving DecidableEq, Repr

/-- `OfflineQueue.add_record`: load the pending list, append the record,
write it back. -/
def add_record (queue : List ScanRecord) (record : ScanRecord) : List ScanRecord :=
  queue ++ [record]

/-- `TrackingAppController.submit_record`, with the durable queue file passed
and returned explicitly.  `token` is `self.state.token` (the code replaces
`None` by `""` and then tests falsiness, so `none` and `some ""` take the
no-credential branch).  `attempt` is the outcome the network would give to
the immediate `requests.post`; the no-credential branch returns before any
network call, hence independently of `attempt`.  A non-200 response raises
`requests.RequestException(f"status ...")`, which the enclosing handler
catches exactly like a transport failure. -/
def submit_record (user_name boxid ttn : String) (token : Option String)
    (attempt : Attempt) (queue : List ScanRecord) :
    SubmitResult × List ScanRecord :=
  let record : ScanRecord := ⟨user_name, boxid, ttn⟩
  match token with
  | none => (⟨"offline", "📦 Збережено локально. Увійдіть для синхронізації."⟩,
      add_record queue record)
  | some tok =>
    if tok = "" then
      (⟨"offline", "📦 Збережено локально. Увійдіть для синхронізації."⟩,
        add_record queue record)
    else
      match attempt with
      | .response code note =>
        if code = 200 then
          (⟨"ok", if note = "" then "✅ Успішно додано" else "⚠️ Дублікат: " ++ note⟩,
            queue)
        else
          (⟨"offline", "📦 Збережено локально (офлайн)."⟩, add_record queue record)
      | .transportError =>
        (⟨"offline", "📦 Збережено локально (офлайн)."⟩, add_record queue record)

/-- Outcome of one POST made by the drain loop in
`OfflineQueue.sync_pending.worker`. -/
inductive DrainOutcome where
  | status (code : Nat)
  | transportError
deriving DecidableEq, Repr

/-- The drain loop of `OfflineQueue.sync_pending.worker`: walk the pending
records in order; a 200 response adds the record to `synced`; any other
status leaves it and moves on; a `requests.RequestException` breaks out of
the loop.  `remote i` is the outcome of the i-th POST of the pass. -/
def collect_synced (remote : Nat → DrainOutcome) : Nat → List ScanRecord → List ScanRecord
  | _, [] => []
  | i, r :: rest =>
    match remote i with
    | .transportError => []
    | .status code =>
      if code = 200 then r :: collect_synced remote (i + 1) rest
      else collect_synced remote (i + 1) rest

/-- `OfflineQueue.sync_pending.worker`, with the durable queue file explicit:
returns the post-drain queue file and `some n` when the callback is invoked
with `n`.  An empty pending list or empty token returns at once (callback
not invoked).  Otherwise entries confirmed accepted are removed from the
durable queue by structural-equality exclusion
(`[r for r in cls._load() if r not in synced]`) and the callback receives
`len(synced)`. -/
def sync_pending (token : String) (pending : List ScanRecord)
    (remote : Nat → DrainOutcome) : List ScanRecord × Option Nat :=
  if pending.isEmpty || token = "" then (pending, none)
  else
    let synced := collect_synced remote 0 pending
    let remaining :=
      if synced.isEmpty then pending
      else pending.filter (fun r => decide (r ∉ synced))
    (remaining, some synced.length)

/-- The `AppState` dataclass: the persisted credential and identity.
Defaults are the dataclass field defaults. -/
structure AppState where
  token : Option String := none
  access_level : Option Int := none
  user_name : String := ""
  user_role : String := "viewer"
deriving DecidableEq, Repr

/-- The key/value content of a parsed state file as `AppState.load` sees it:
for each dataclass field, `some v` when the key is present (bound to `v`) and
`none` when absent; `unknown` lists the keys outside
`{field.name for field in fields(cls)}`, which the load filter drops. -/
structure StateFileFields where
  token : Option (Option String) := none
  access_level : Option (Option Int) := none
  user_name : Option String := none
  user_role : Option String := none
  unknown : List String := []
deriving DecidableEq, Repr

/-- The durable state file.  `absent`: `STATE_PATH.exists()` is false.
`unparsable`: `json.loads` raises.  `nonRecord`: the JSON parses but is not
an object, so `data.items()` raises inside the same `try`.  `record`: a JSON
object, split into known and unknown keys. -/
inductive StateFile where
  | absent
  | unparsable
  | nonRecord
  | record (fields : StateFileFields)
deriving DecidableEq, Repr

/-- `AppState.load`, with the durable file explicit: returns the loaded state
and the file as it exists afterwards (`unlink` on any exception inside the
`try`, untouched otherwise).  Known keys present in the file fill the
corresponding fields, the dataclass defaults fill absent ones, unknown keys
are filtered out before `cls(**filtered)`. -/
def AppState.load : StateFile → AppState × StateFile
  | .absent => ({}, .absent)
  | .unparsable => ({}, .absent)
  | .nonRecord => ({}, .absent)
  | .record fs =>
    (⟨fs.token.getD none, fs.access_level.getD none,
      fs.user_name.getD "", fs.user_role.getD "viewer"⟩, .record fs)

/-- `AppState.save`: `json.dumps(asdict(self))` writes every dataclass field,
producing a parsable object file with no unknown keys. -/
def AppState.save (s : AppState) : StateFile :=
  .record ⟨some s.token, some s.access_level, some s.user_name, some s.user_role, []⟩

/-- `TrackingAppController.logout`: reset token, access level and role, keep
`user_name`, then `self.state.save()`. -/
def logout (s : AppState) : AppState :=
  { s with token := none, access_level := none, user_role := "viewer" }

/-- `TrackingAppController.__init__` sets `self._online = False`: the
monitor's initial last-known state. -/
def initial_online : Bool := false

/-- `check_connectivity.on_success` folded over a list of resolved probe
results, collecting the values passed to `connectivity_changed.emit`:
an event fires only when the result differs from `self._online`, and
`self._online` is updated to the result in that case. -/
def run_probes : Bool → List Bool → List Bool
  | _, [] => []
  | online, r :: rest =>
    if online ≠ r then r :: run_probes r rest
    else run_probes online rest

/-- A history or error event record as the statistics page consumes it:
`user_name` is the operator field (absent or blank handled in `_refresh`),
`datetime_utc` abstracts `parse_api_datetime(record.get("datetime"))`:
`some t` holds the UTC instant in seconds when the field parses, `none`
stands for an absent or unparseable `datetime` field. -/
structure EventRecord where
  user_name : Option String
  datetime_utc : Option Int
deriving DecidableEq, Repr

/-- `StatisticsPage._filter_records`: drop records whose timestamp does not
parse; convert the rest to local time (`tz` is the local UTC offset in
seconds, applied by `.astimezone()`); skip a record when a start bound is
present and the local instant is before it, or an end bound is present and
the local instant is after it; keep the rest in order. -/
def filter_records (tz : Int) (startB endB : Option Int) :
    List EventRecord → List EventRecord
  | [] => []
  | r :: rest =>
    let tail := filter_records tz startB endB rest
    match r.datetime_utc with
    | none => tail
    | some t =>
      let localInstant := t + tz
      if startB.any (fun s => decide (localInstant < s)) then tail
      else if endB.any (fun e => decide (e < localInstant)) then tail
      else r :: tail

/-- The specification's reading of the window filter, written from its words:
keep exactly the records whose timestamp parses and whose local instant
satisfies `start ≤ t` and `t ≤ end` for each bound that is present
(inclusive; an absent bound is unbounded). -/
def keeps_record_spec (tz : Int) (startB endB : Option Int) (r : EventRecord) : Bool :=
  match r.datetime_utc with
  | none => false
  | some t =>
    (startB.all fun s => decide (s ≤ t + tz)) && (endB.all fun e => decide (t + tz ≤ e))

/-- `StatisticsPage._top_entry` over the iteration order of the counts
mapping: empty input yields the sentinel `("—", 0)`; otherwise
`max(counts.items(), key=lambda item: item[1])`, which keeps the earliest
entry among ties (a later entry replaces the best only when strictly
greater). -/
def top_entry (counts : List (String × Nat)) : String × Nat :=
  match counts with
  | [] => ("—", 0)
  | c :: rest => rest.foldl (fun best item => if best.2 < item.2 then item else best) c

/-- `datetime.combine(day, time)` in the linearised model: `day` is a day
index, `secs` a second count within the day. -/
def combine (day secs : Int) : Int := day * 86400 + secs

/-- The statistics page's period selection: `start_date`/`end_date` are
`Optional[date]` (day indices), `start_time`/`end_time` are `Optional[time]`
(seconds within the day), each `None` when the picker returned nothing. -/
structure PeriodState where
  start_date : Option Int
  start_time : Option Int
  end_date : Option Int
  end_time : Option Int
deriving DecidableEq, Repr

/-- `StatisticsPage._start_datetime`: `None` without a start date, else
`datetime.combine(self.start_date, self.start_time or dtime.min)`. -/
def start_datetime (s : PeriodState) : Option Int :=
  match s.start_date with
  | none => none
  | some d => some (combine d (s.start_time.getD 0))

/-- `StatisticsPage._end_datetime`: `None` without an end date, else
`datetime.combine(self.end_date, self.end_time or dtime(23, 59, 59))`. -/
def end_datetime (s : PeriodState) : Option Int :=
  match s.end_date with
  | none => none
  | some d => some (combine d (s.end_time.getD 86399))

/-- `StatisticsPage._ensure_order`, run after every period edit: when both
combined instants are present and start > end, swap the two dates and the
two times. -/
def ensure_order (s : PeriodState) : PeriodState :=
  match start_datetime s, end_datetime s with
  | some st, some en =>
    if en < st then
      ⟨s.end_date, s.end_time, s.start_date, s.start_time⟩
    else s
  | _, _ => s

/-- The specification's reading of the connectivity events, written from its
words: pair every resolved probe result with the last known state preceding
it (the initial state, then the previous probe's result, since the monitor's
state always equals the last resolved result) and emit exactly the results
that differ from their predecessor. -/
def emitted_on_changes (prev : Bool) (probes : List Bool) : List Bool :=
  ((prev :: probes).zip probes).filterMap fun pc =>
    if pc.1 ≠ pc.2 then some pc.2 else none

/-- C1: every call to `submit_record` ends the record in exactly one of two
states — status `"ok"` with the queue untouched, obtained exactly when a
response with status code 200 was received, or status `"offline"` with the
record appended to the durable queue; there is no failure outcome and the
record is never dropped.  Moreover with no credential held the result is the
offline/queued outcome independently of the network behaviour `attempt`,
i.e. without any network attempt. -/
theorem submit_record_no_loss :
    ∀ (un b t : String) (token : Option String) (attempt : Attempt)
      (queue : List ScanRecord),
      (((submit_record un b t token attempt queue).1.status = "ok" ∧
        (submit_record un b t token attempt queue).2 = queue ∧
        ∃ note, attempt = .response 200 note) ∨
       ((submit_record un b t token attempt queue).1.status = "offline" ∧
        (submit_record un b t token attempt queue).2 = queue ++ [⟨un, b, t⟩])) ∧
      submit_record un b t none attempt queue =
        (⟨"offline", "📦 Збережено локально. Увійдіть для синхронізації."⟩,
          queue ++ [⟨un, b, t⟩]) := by
  intro un b t token attempt queue
  constructor
  · match token with
    | none => right; simp [submit_record, add_record]
    | some tok =>
      by_cases htok : tok = ""
      · right; simp [submit_record, htok, add_record]
      · match attempt with
        | .transportError => right; simp [submit_record, htok, add_record]
        | .response code note =>
          by_cases hc : code = 200
          · subst hc; left; simp [submit_record, htok]
          · right; simp [submit_record, htok, hc, add_record]
  · simp [submit_record, add_record]

/-- C3 counterexample: with a credential held, a server rejection (a response
obtained with status 500, carrying a message) is not surfaced — `submit_record`
returns status `"offline"` and queues the record, producing a result
indistinguishable from a transport failure. -/
theorem submit_record_rejection_not_surfaced_cex :
    (submit_record "op" "B1" "T1" (some "tok") (.response 500 "err") []).1.status
      = "offline" ∧
    submit_record "op" "B1" "T1" (some "tok") (.response 500 "err") [] =
      submit_record "op" "B1" "T1" (some "tok") .transportError [] := by
  constructor <;> rfl

/-- C3 (amended): with a credential held, any response whose status code is
not 200 — server rejections included — is converted by `submit_record` into
the queued-offline outcome, exactly like a transport failure: the record is
appended to the durable queue and status `"offline"` is returned, so this
call's callers cannot distinguish "offline" from "rejected". -/
theorem submit_record_server_rejection_queued (un b t tok note : String)
    (code : Nat) (queue : List ScanRecord)
    (htok : tok ≠ "") (hc : code ≠ 200) :
    submit_record un b t (some tok) (.response code note) queue =
      (⟨"offline", "📦 Збережено локально (офлайн)."⟩, queue ++ [⟨un, b, t⟩]) := by
  simp [submit_record, htok, hc, add_record]

/-- C3 witness: the amended theorem at a concrete rejected submission. -/
theorem submit_record_server_rejection_queued_witness :
    submit_record "op" "B1" "T1" (some "tok") (.response 500 "err") [] =
      (⟨"offline", "📦 Збережено локально (офлайн)."⟩, [⟨"op", "B1", "T1"⟩]) :=
  submit_record_server_rejection_queued "op" "B1" "T1" "tok" "err" 500 []
    (by decide) (by decide)

/-- C4 counterexample: logging out from a state whose operator display name
is `"Alice"` does not reset every persisted field to its default — the
resulting state differs from the all-defaults state because `user_name` is
kept. -/
theorem logout_keeps_user_name_cex :
    logout ⟨some "tok", some 2, "Alice", "admin"⟩ ≠ ({} : AppState) := by
  decide

/-- C4 (amended): `logout` resets the token, access level and role fields to
their defaults and the cleared state is saved durably (loading the saved
file yields it back); the operator display name is preserved, not reset. -/
theorem logout_resets_credential_fields :
    ∀ s : AppState,
      logout s = ⟨none, none, s.user_name, "viewer"⟩ ∧
      (AppState.load (AppState.save (logout s))).1 = logout s := by
  intro s
  constructor
  · rfl
  · rfl

/-- C5: `AppState.load` never propagates a parse error (it is a total
function into states): an absent, unparsable, or parsable-but-not-a-record
file loads as the default state, and in the two corrupt cases the file no
longer exists afterwards; unknown fields in a parsable record are ignored
(they change neither the loaded state nor the file), defaults fill absent
fields, and a parsable record file is left in place. -/
theorem load_corruption_recovery :
    AppState.load .absent = ({}, .absent) ∧
    AppState.load .unparsable = ({}, .absent) ∧
    AppState.load .nonRecord = ({}, .absent) ∧
    (∀ (fs : StateFileFields) (u : List String),
      (AppState.load (.record { fs with unknown := u })).1 =
        (AppState.load (.record fs)).1) ∧
    (∀ u : List String,
      (AppState.load (.record { unknown := u })).1 = ({} : AppState)) ∧
    (∀ fs : StateFileFields, (AppState.load (.record fs)).2 = .record fs) := by
  refine ⟨rfl, rfl, rfl, ?_, ?_, ?_⟩
  · intro fs u; rfl
  · intro u; rfl
  · intro fs; rfl

/-- The fold inside `top_entry` (Python's `max` with a key): its result is
the accumulator or a list element, its count dominates the accumulator's,
and it dominates every element's count. -/
theorem fold_best_spec :
    ∀ (rest : List (String × Nat)) (acc : String × Nat),
      rest.foldl (fun best item => if best.2 < item.2 then item else best) acc
        ∈ acc :: rest ∧
      acc.2 ≤ (rest.foldl (fun best item => if best.2 < item.2 then item else best) acc).2 ∧
      ∀ x ∈ rest,
        x.2 ≤ (rest.foldl (fun best item => if best.2 < item.2 then item else best) acc).2 := by
  intro rest
  induction rest with
  | nil =>
    intro acc
    refine ⟨List.mem_cons_self _ _, le_refl _, ?_⟩
    intro x hx
    cases hx
  | cons y ys ih =>
    intro acc
    obtain ⟨hmem, hacc, hall⟩ := ih (if acc.2 < y.2 then y else acc)
    have hstep : acc.2 ≤ (if acc.2 < y.2 then y else acc).2 ∧
        y.2 ≤ (if acc.2 < y.2 then y else acc).2 := by
      by_cases hy : acc.2 < y.2 <;> simp [hy] <;> omega
    rw [List.foldl_cons]
    refine ⟨?_, le_trans hstep.1 hacc, ?_⟩
    · rcases List.mem_cons.mp hmem with h | h
      · by_cases hy : acc.2 < y.2
        · rw [h, if_pos hy]
          exact List.mem_cons_of_mem _ (List.mem_cons_self _ _)
        · rw [h, if_neg hy]
          exact List.mem_cons_self _ _
      · exact List.mem_cons_of_mem _ (List.mem_cons_of_mem _ h)
    · intro x hx
      rcases List.mem_cons.mp hx with h | h
      · rw [h]
        exact le_trans hstep.2 hacc
      · exact hall x h

/-- C7: `top_entry` on the empty mapping returns the sentinel `("—", 0)`
(it is a total function, so it never raises); on every non-empty mapping it
returns a pair that is a member of the mapping and whose count is the
maximum count over all entries. -/
theorem top_entry_spec :
    top_entry [] = ("—", 0) ∧
    ∀ (c : String × Nat) (rest : List (String × Nat)),
      top_entry (c :: rest) ∈ c :: rest ∧
      ∀ x ∈ c :: rest, x.2 ≤ (top_entry (c :: rest)).2 := by
  refine ⟨rfl, ?_⟩
  intro c rest
  obtain ⟨hmem, hacc, hall⟩ := fold_best_spec rest c
  refine ⟨hmem, ?_⟩
  intro x hx
  rcases List.mem_cons.mp hx with h | h
  · rw [h]
    exact hacc
  · exact hall x h

/-- Probing the monitor repeatedly with its current last-known state emits
nothing. -/
theorem run_probes_replicate_self (b : Bool) :
    ∀ n : Nat, run_probes b (List.replicate n b) = [] := by
  intro n
  induction n with
  | zero => rfl
  | succ n ih => simpa [run_probes] using ih

/-- `run_probes` equals the specification-side `emitted_on_changes`. -/
theorem run_probes_eq_emitted_on_changes :
    ∀ (probes : List Bool) (s : Bool),
      run_probes s probes = emitted_on_changes s probes := by
  intro probes
  induction probes with
  | nil => intro s; rfl
  | cons r rest ih =>
    intro s
    by_cases h : s = r <;>
      simp [run_probes, emitted_on_changes, h, ih r]

/-- C8 counterexample: the monitor's initial last-known state is `False`
(Offline), not Unknown — a first probe resolving Offline emits no
connectivity change event, while a first probe resolving Online does. -/
theorem connectivity_first_probe_cex :
    run_probes initial_online [false] = [] ∧
    run_probes initial_online [true] = [true] := by
  constructor <;> rfl

/-- C8 (amended): the monitor starts with last-known state `False` (Offline)
rather than Unknown; a change event is emitted exactly when a resolved probe
result differs from the last known state (so the first probe emits an event
iff it resolves Online), and consecutive probes resolving to the same result
produce zero further events after the first. -/
theorem connectivity_change_events :
    initial_online = false ∧
    (∀ (s : Bool) (probes : List Bool),
      run_probes s probes = emitted_on_changes s probes) ∧
    (∀ (s b : Bool) (n : Nat),
      run_probes s (b :: List.replicate n b) = if s = b then [] else [b]) := by
  refine ⟨rfl, fun s probes => run_probes_eq_emitted_on_changes probes s, ?_⟩
  intro s b n
  by_cases h : s = b <;>
    simp [run_probes, h, run_probes_replicate_self]

/-- C2: draining a queue `[A, B, C]` of pairwise distinct records where the
remote accepts the first POST with status 200 and the second POST raises a
transport failure stops before attempting `C` (the behaviour of the remote
beyond the second POST is unconstrained, so it is never consulted), leaves
the durable queue exactly `[B, C]` in that order, and invokes the callback
with count 1. -/
theorem sync_pending_fifo (token : String) (A B C : ScanRecord)
    (remote : Nat → DrainOutcome)
    (htok : token ≠ "") (hBA : B ≠ A) (hCA : C ≠ A)
    (h0 : remote 0 = .status 200) (h1 : remote 1 = .transportError) :
    sync_pending token [A, B, C] remote = ([B, C], some 1) := by
  have hsync : collect_synced remote 0 [A, B, C] = [A] := by
    simp [collect_synced, h0, h1]
  simp [sync_pending, htok, hsync, hBA, hCA]

/-- C2 witness: the drain theorem at a concrete queue and remote. -/
theorem sync_pending_fifo_witness :
    sync_pending "tok"
      [⟨"op", "B1", "T1"⟩, ⟨"op", "B2", "T2"⟩, ⟨"op", "B3", "T3"⟩]
      (fun i => if i = 0 then .status 200 else .transportError) =
      ([⟨"op", "B2", "T2"⟩, ⟨"op", "B3", "T3"⟩], some 1) :=
  sync_pending_fifo "tok" ⟨"op", "B1", "T1"⟩ ⟨"op", "B2", "T2"⟩ ⟨"op", "B3", "T3"⟩
    (fun i => if i = 0 then .status 200 else .transportError)
    (by decide) (by decide) (by decide) rfl rfl

/-- C10: whenever a drain pass confirms a record (it is among the entries the
loop collected as accepted before stopping), the structural-equality
exclusion removes every copy of it from the durable queue: the post-drain
queue contains zero copies, including copies that were never submitted in
that pass. -/
theorem sync_pending_removes_all_copies (token : String)
    (pending : List ScanRecord) (remote : Nat → DrainOutcome) (r : ScanRecord)
    (htok : token ≠ "") (hr : r ∈ collect_synced remote 0 pending) :
    (sync_pending token pending remote).1.count r = 0 := by
  cases pending with
  | nil => simp [collect_synced] at hr
  | cons p ps =>
    have hcond : ((p :: ps).isEmpty || decide (token = "")) = false := by
      simp [htok]
    have hsne : (collect_synced remote 0 (p :: ps)).isEmpty = false := by
      cases hcs : collect_synced remote 0 (p :: ps) with
      | nil => rw [hcs] at hr; cases hr
      | cons a as => rfl
    rw [sync_pending]
    simp only [hcond, Bool.false_eq_true, if_false, hsne]
    rw [List.count_eq_zero]
    intro hmem
    have h2 := (List.mem_filter.mp hmem).2
    rw [decide_eq_true_eq] at h2
    exact h2 hr

/-- C10 witness: a queue holding two structurally equal copies of the same
record, a drain pass that confirms the first copy and then stops on a
transport failure; no copy remains. -/
theorem sync_pending_removes_all_copies_witness :
    (sync_pending "tok"
      [⟨"op", "B1", "T1"⟩, ⟨"op", "B2", "T2"⟩, ⟨"op", "B1", "T1"⟩]
      (fun i => if i = 0 then .status 200 else .transportError)).1.count
        ⟨"op", "B1", "T1"⟩ = 0 :=
  sync_pending_removes_all_copies "tok"
    [⟨"op", "B1", "T1"⟩, ⟨"op", "B2", "T2"⟩, ⟨"op", "B1", "T1"⟩]
    (fun i => if i = 0 then .status 200 else .transportError)
    ⟨"op", "B1", "T1"⟩ (by decide) (by decide)

/-- C9: after `_ensure_order` runs (as it does after every user edit of the
statistics period), whenever both the combined start instant and the
combined end instant are present, start ≤ end. -/
theorem ensure_order_start_le_end (s : PeriodState) (st en : Int)
    (hst : start_datetime (ensure_order s) = some st)
    (hen : end_datetime (ensure_order s) = some en) : st ≤ en := by
  obtain ⟨sd, stt, ed, ett⟩ := s
  cases sd with
  | none =>
    cases ed with
    | none => simp [ensure_order, start_datetime] at hst
    | some d2 => simp [ensure_order, start_datetime] at hst
  | some d1 =>
    cases ed with
    | none => simp [ensure_order, end_datetime] at hen
    | some d2 =>
      by_cases hlt : combine d2 (ett.getD 86399) < combine d1 (stt.getD 0)
      · have he : ensure_order ⟨some d1, stt, some d2, ett⟩ =
            ⟨some d2, ett, some d1, stt⟩ := by
          simp [ensure_order, start_datetime, end_datetime, hlt]
        rw [he] at hst hen
        simp [start_datetime, end_datetime] at hst hen
        cases stt <;> cases ett <;>
          simp [combine] at hst hen hlt <;> omega
      · have he : ensure_order ⟨some d1, stt, some d2, ett⟩ =
            ⟨some d1, stt, some d2, ett⟩ := by
          simp [ensure_order, start_datetime, end_datetime, hlt]
        rw [he] at hst hen
        simp [start_datetime, end_datetime] at hst hen
        cases stt <;> cases ett <;>
          simp [combine] at hst hen hlt <;> omega

/-- C9 witness: the invariant theorem at a concrete period whose bounds were
entered in the wrong order (start 5 days/100 s, end 3 days/50 s), so
`_ensure_order` swaps them. -/
theorem ensure_order_start_le_end_witness :
    (combine 3 50 : Int) ≤ combine 5 100 :=
  ensure_order_start_le_end ⟨some 5, some 100, some 3, some 50⟩
    (combine 3 50) (combine 5 100) (by decide) (by decide)

/-- A present lower bound fires the skip test iff it does not satisfy the
inclusive spec-side test. -/
theorem any_lt_eq_bnot_all_le (o : Option Int) (x : Int) :
    (o.any fun s => decide (x < s)) = !(o.all fun s => decide (s ≤ x)) := by
  cases o with
  | none => rfl
  | some s =>
    by_cases h : x < s
    · simp [h, not_le.mpr h]
    · simp [h, not_lt.mp h]

/-- A present upper bound fires the skip test iff it does not satisfy the
inclusive spec-side test. -/
theorem any_gt_eq_bnot_all_ge (o : Option Int) (x : Int) :
    (o.any fun e => decide (e < x)) = !(o.all fun e => decide (x ≤ e)) := by
  cases o with
  | none => rfl
  | some e =>
    by_cases h : e < x
    · simp [h, not_le.mpr h]
    · simp [h, not_lt.mp h]

/-- `_filter_records` computes exactly the spec-side window filter. -/
theorem filter_records_eq_filter (tz : Int) (startB endB : Option Int) :
    ∀ rs : List EventRecord,
      filter_records tz startB endB rs = rs.filter (keeps_record_spec tz startB endB) := by
  intro rs
  induction rs with
  | nil => rfl
  | cons r rest ih =>
    cases hdt : r.datetime_utc with
    | none => simp [filter_records, keeps_record_spec, hdt, ih]
    | some t =>
      simp only [filter_records, hdt, ih, List.filter_cons, keeps_record_spec,
        any_lt_eq_bnot_all_le, any_gt_eq_bnot_all_ge]
      cases (startB.all fun s => decide (s ≤ t + tz)) <;>
        cases (endB.all fun e => decide (t + tz ≤ e)) <;> simp

/-- C6: the window filter keeps exactly the records whose timestamp parses
and whose local instant lies within the inclusive window (an absent bound is
unbounded; records without a parseable timestamp are excluded) — stated as
equality with the spec-side filter `keeps_record_spec`.  In particular, for
records at 08:00 on the days 2024-01-01, 2024-01-02 and 2024-01-03 (day
indices 19723, 19724, 19725 since the epoch) and the window
[2024-01-02 00:00:00, 2024-01-02 23:59:59], exactly the middle record
passes. -/
theorem filter_records_window :
    (∀ (tz : Int) (startB endB : Option Int) (rs : List EventRecord),
      filter_records tz startB endB rs =
        rs.filter (keeps_record_spec tz startB endB)) ∧
    filter_records 0 (some (combine 19724 0)) (some (combine 19724 86399))
      [⟨some "op", some (combine 19723 28800)⟩,
       ⟨some "op", some (combine 19724 28800)⟩,
       ⟨some "op", some (combine 19725 28800)⟩] =
      [⟨some "op", some (combine 19724 28800)⟩] :=
  ⟨fun tz startB endB rs => filter_records_eq_filter tz startB endB rs, by decide⟩

end TrackingApp
